import Mathlib

/-!
Verification of the query-builder core of the `mysql` Go package
(`mysql.go`, plus the `Error` struct and scalar conversion helpers).

Go strings become Lean `String`; a Go `map[string]interface{}` becomes an
association list snapshot of one iteration of the map (Go map iteration
order is unspecified, but within one call the clause text and the value
sequence are built from the same single iteration, which the list
captures); a possibly-`nil` map becomes an `Option`; Go `interface{}`
values become the `GoValue` inductive; a Go panic in a pure helper becomes
an `Option`/sum result.
-/

set_option autoImplicit false

namespace JeefoMysql

/-- The backtick character, written by code point. -/
def tick : Char := Char.ofNat 96

/-- Model of Go `strings.Join xs sep`: the separator between elements. -/
def joinSep (sep : String) : List String → String
  | [] => ""
  | [s] => s
  | s :: rest => s ++ sep ++ joinSep sep rest

/-- Model of Go `strings.Replace part "\x60" "\x60\x60" -1` at the
character-list level: every backtick is doubled, everything else kept. -/
def escTick : List Char → List Char
  | [] => []
  | c :: rest => if c = tick then tick :: tick :: escTick rest else c :: escTick rest

/-- Model of Go `strings.Split id "."` at the character-list level.
`Split` never returns an empty list: the empty string yields `[""]`. -/
def splitDot : List Char → List (List Char)
  | [] => [[]]
  | c :: rest =>
      if c = '.' then [] :: splitDot rest
      else
        match splitDot rest with
        | [] => [[c]]
        | p :: ps => (c :: p) :: ps

/-- `EscapeId` from `mysql.go`: with the `ignore_dot` flag the whole
identifier is quoted as one unit; otherwise it is split on `.` and each
part quoted independently, internal backticks doubled either way. -/
def EscapeId (id : String) (ignore_dot : Bool := false) : String :=
  if ignore_dot then "`" ++ String.mk (escTick id.data) ++ "`"
  else joinSep "." ((splitDot id.data).map
    (fun p => "`" ++ String.mk (escTick p) ++ "`"))

/-- A Go `interface{}` value as it appears in condition and data maps. -/
inductive GoValue : Type
  | null : GoValue
  | int : Int → GoValue
  | str : String → GoValue
  | boolV : Bool → GoValue
  | list : List GoValue → GoValue
  | mapV : List (String × GoValue) → GoValue

/-- Model of the external `encoding/json.Marshal` collaborator used for
nested map values; the claims under verification never depend on the exact
text it produces, only on the fact that it contributes one bound value. -/
def jsonEncode : GoValue → String
  | .null => "null"
  | .int n => toString n
  | .str s => "\"" ++ s ++ "\""
  | .boolV b => cond b "true" "false"
  | .list xs => "[" ++ joinSep "," (xs.attach.map (fun x => jsonEncode x.1)) ++ "]"
  | .mapV kvs => "\x7b" ++
      joinSep "," (kvs.attach.map
        (fun kv => "\"" ++ kv.1.1 ++ "\":" ++ jsonEncode kv.1.2)) ++ "\x7d"
decreasing_by
  · have := List.sizeOf_lt_of_mem x.2; simp at this ⊢; omega
  · rcases kv with ⟨⟨k, v⟩, hm⟩
    have := List.sizeOf_lt_of_mem hm
    simp at this ⊢
    omega

/-- The `_where` struct of `mysql.go`. -/
structure Where : Type where
  query : String
  values : List GoValue

/-- One iteration of the loop body of `prepare_where`: the condition text
and the values contributed by one `key, value` entry. Mirrors the type
dispatch of the source: `nil` gives `IS NULL` and no value, a slice gives
`IN(...)` with one placeholder per element, a map is JSON-serialized and
bound as one string value, any other value is bound verbatim. -/
def whereCondition (key : String) (value : GoValue) : String × List GoValue :=
  let k := EscapeId key
  match value with
  | .null => (k ++ " IS NULL", [])
  | .list xs => (k ++ "IN(" ++ joinSep ", " (xs.map (fun _ => "?")) ++ ")", xs)
  | .mapV kvs => (k ++ " = ?", [GoValue.str (jsonEncode (GoValue.mapV kvs))])
  | v => (k ++ " = ?", [v])

/-- `prepare_where` from `mysql.go`. `none` models a `nil` map (the only
case the source's `where != nil` guard excludes); `some entries` models a
non-nil map whose single iteration visits `entries` in order. Note the
source prepends `" WHERE "` whenever the map is non-nil, even when it is
empty. -/
def prepare_where (w : Option (List (String × GoValue))) : Where :=
  match w with
  | none => { query := "", values := [] }
  | some entries =>
      let conds := entries.map (fun kv => whereCondition kv.1 kv.2)
      { query := " WHERE " ++ joinSep " AND " (conds.map Prod.fst)
        values := (conds.map Prod.snd).flatten }

/-- A value stored in an options map. The source reads options through Go
type assertions (`.(int)`, `.(string)`, `.([]string)`); `other` stands for
any value of a type none of those assertions accept. -/
inductive OptVal : Type
  | int : Int → OptVal
  | str : String → OptVal
  | strList : List String → OptVal
  | other : OptVal
deriving DecidableEq

/-- One options map (`map[string]interface{}` restricted to option
values), as an association-list snapshot; a `nil` map is the empty list. -/
abbrev Options := List (String × OptVal)

/-- Rendering of `fmt.Sprintf "%d"` for a Go `int`. -/
def intStr (n : Int) : String := toString n

/-- `order_query` from `mysql.go`: a string-typed `order` option becomes a
verbatim ` ORDER BY ` fragment, anything else the empty string. -/
def order_query (options : Options) : String :=
  match List.lookup "order" options with
  | some (OptVal.str v) => " ORDER BY " ++ v
  | _ => ""

/-- `limit_query` from `mysql.go`: with an int-typed `limit` option, emit
` LIMIT <offset>, <limit>` when `has_offset` (offset defaulting to `0`),
else ` LIMIT <limit>`; without one, the empty string. -/
def limit_query (options : Options) (has_offset : Bool) : String :=
  match List.lookup "limit" options with
  | some (OptVal.int n) =>
      if has_offset then
        let offset : Int :=
          match List.lookup "offset" options with
          | some (OptVal.int m) => m
          | _ => 0
        " LIMIT " ++ intStr offset ++ ", " ++ intStr n
      else " LIMIT " ++ intStr n
  | _ => ""

/-- `prepare_columns` from `mysql.go`: a string `column` option wins, then
a string-list `columns` option (each escaped), else `*`. -/
def prepare_columns (options : Options) : String :=
  match List.lookup "column" options with
  | some (OptVal.str field) => EscapeId field
  | _ =>
      match List.lookup "columns" options with
      | some (OptVal.strList fields) =>
          joinSep ", " (fields.map (fun f => EscapeId f))
      | _ => "*"

/-- `prepare_set` from `mysql.go`: per entry, a `nil` value emits
`<col> = NULL` and binds nothing, any other value emits `<col> = ?` and is
bound; fragments joined with `, `. -/
def prepare_set (data : List (String × GoValue)) : String × List GoValue :=
  let columns := data.map (fun kv =>
    match kv.2 with
    | GoValue.null => EscapeId kv.1 ++ " = NULL"
    | _ => EscapeId kv.1 ++ " = ?")
  let values := (data.map (fun kv =>
    match kv.2 with
    | GoValue.null => ([] : List GoValue)
    | v => [v])).flatten
  (joinSep ", " columns, values)

/-- Go map assignment `m[k] = v` on the association-list snapshot: the
first binding of `k` is replaced, or the binding is appended. -/
def mapSet (m : Options) (k : String) (v : OptVal) : Options :=
  match m with
  | [] => [(k, v)]
  | (k', v') :: rest => if k' = k then (k, v) :: rest else (k', v') :: mapSet rest k v

/-- `set_limit_option` from `mysql.go`, acting on the variadic options
slice: with no options map a fresh one holding `limit = 1` is created,
with exactly one its `limit` key is overwritten; any longer slice is left
untouched (the `switch` has no case for it). -/
def set_limit_option (options : List Options) : List Options :=
  match options with
  | [] => [[("limit", OptVal.int 1)]]
  | [o] => [mapSet o "limit" (OptVal.int 1)]
  | os => os

/-- The condition-map argument: `none` is a `nil` map, `some entries` a
non-nil map iterated in `entries` order. -/
abbrev WhereMap := Option (List (String × GoValue))

/-- The query text and bound values built by `Select` in `mysql.go`
(`"SELECT %s FROM %s%s%s%s;"` over columns, escaped table, where, order,
limit-with-offset); `args` is the variadic options slice, of which only
the head is consulted. -/
def Select_query (table : String) (w : WhereMap) (args : List Options) :
    String × List GoValue :=
  let options := args.headD []
  let cols := prepare_columns options
  let w' := prepare_where w
  let order := order_query options
  let limit := limit_query options true
  ("SELECT " ++ cols ++ " FROM " ++ EscapeId table
      ++ w'.query ++ order ++ limit ++ ";",
   w'.values)

/-- The query text and bound values built by `Insert` in `mysql.go`: every
entry contributes an escaped column, a `?` placeholder and a bound value
(`nil` values included). -/
def Insert_query (table : String) (data : List (String × GoValue)) :
    String × List GoValue :=
  let cols := joinSep ", " (data.map (fun kv => EscapeId kv.1))
  let vals := joinSep ", " (data.map (fun _ => "?"))
  ("INSERT INTO " ++ EscapeId table ++ "(" ++ cols ++ ") VALUES(" ++ vals ++ ")",
   data.map Prod.snd)

/-- The query text and bound values built by `InsertRow` in `mysql.go`:
`"INSERT INTO %s SET %s;"` — the table is interpolated raw, unescaped. -/
def InsertRow_query (table : String) (data : List (String × GoValue)) :
    String × List GoValue :=
  let sv := prepare_set data
  ("INSERT INTO " ++ table ++ " SET " ++ sv.1 ++ ";", sv.2)

/-- The query text and bound values built by `Update` in `mysql.go`:
`"UPDATE %s SET %s%s%s%s;"` with escaped table; bound values are the SET
values followed by the WHERE values. -/
def Update_query (table : String) (data : List (String × GoValue))
    (w : WhereMap) (args : List Options) : String × List GoValue :=
  let options := args.headD []
  let sv := prepare_set data
  let w' := prepare_where w
  let order := order_query options
  let limit := limit_query options false
  ("UPDATE " ++ EscapeId table ++ " SET " ++ sv.1
      ++ w'.query ++ order ++ limit ++ ";",
   sv.2 ++ w'.values)

/-- The query text and bound values built by `Delete` in `mysql.go`:
`"DELETE FROM %s%s%s%s;"` — the table is interpolated raw, unescaped; the
order and limit fragments are computed inline (string-typed `order`,
int-typed `limit`, no offset). -/
def Delete_query (table : String) (w : WhereMap) (args : List Options) :
    String × List GoValue :=
  let options := args.headD []
  let w' := prepare_where w
  let order :=
    match List.lookup "order" options with
    | some (OptVal.str v) => " ORDER BY " ++ v
    | _ => ""
  let limit :=
    match List.lookup "limit" options with
    | some (OptVal.int v) => " LIMIT " ++ intStr v
    | _ => ""
  ("DELETE FROM " ++ table ++ w'.query ++ order ++ limit ++ ";", w'.values)

/-- The query built by `First` in `mysql.go`: `set_limit_option` rewrites
the variadic options slice, then `Select` runs on it. -/
def First_query (table : String) (w : WhereMap) (options : List Options) :
    String × List GoValue :=
  Select_query table w (set_limit_option options)

/-- The query built by `UpdateFirst` in `mysql.go`. -/
def UpdateFirst_query (table : String) (data : List (String × GoValue))
    (w : WhereMap) (options : List Options) : String × List GoValue :=
  Update_query table data w (set_limit_option options)

/-- The query built by `DeleteFirst` in `mysql.go`. -/
def DeleteFirst_query (table : String) (w : WhereMap) (options : List Options) :
    String × List GoValue :=
  Delete_query table w (set_limit_option options)

/-- An error returned by the database driver collaborator: either a
structured `*mysql.MySQLError` (code and message) or any other error. -/
inductive DBErr : Type
  | mysql : Nat → String → DBErr
  | other : String → DBErr
deriving DecidableEq

/-- The `Error` struct of the package (`Query`, `Values`, `MySQLError`). -/
structure ErrorBox : Type where
  Query : String
  Values : List GoValue
  Number : Nat
  Message : String

/-- The panic raised on an execution failure: either the package's
`Error` struct or the raw underlying error. -/
inductive PanicVal : Type
  | errorStruct : ErrorBox → PanicVal
  | rawErr : String → PanicVal

/-- `handle_error` from `mysql.go`: a driver `*MySQLError` is wrapped in
the `Error` struct together with the query and the received variadic
`values` slice; any other error is re-panicked raw. -/
def handle_error (err : DBErr) (query : String) (values : List GoValue) :
    PanicVal :=
  match err with
  | .mysql code msg => .errorStruct ⟨query, values, code, msg⟩
  | .other msg => .rawErr msg

/-- The failure path of `ExecQuery`/`Exec` in `mysql.go`: both call
`handle_error(err, query, values)`, passing the `[]interface{}` slice
`values` to the variadic parameter WITHOUT the `...` spread, so the
variadic slice received by `handle_error` is the one-element slice whose
sole element is the whole bound-value slice. -/
def exec_failure (query : String) (values : List GoValue) (err : DBErr) :
    PanicVal :=
  handle_error err query [GoValue.list values]

/-- Value accumulated by Go's `strconv` digit loop; `none` on the first
non-digit. -/
def digitsAux : List Char → Nat → Option Nat
  | [], acc => some acc
  | c :: rest, acc =>
      if c.isDigit then digitsAux rest (acc * 10 + (c.toNat - 48)) else none

/-- Decimal value of a non-empty all-digit string, else `none`. -/
def digitsVal : List Char → Option Nat
  | [] => none
  | l => digitsAux l 0

/-- Model of the external `strconv.Atoi` collaborator on a 64-bit
platform: optional single sign, one or more decimal digits, error (here
`none`) on malformed input or on a value outside the signed 64-bit int
range. -/
def atoi (s : String) : Option Int :=
  let core : List Char → Bool → Option Int := fun l neg =>
    match digitsVal l with
    | none => none
    | some n =>
        if neg then
          if n ≤ 9223372036854775808 then some (-(n : Int)) else none
        else
          if n ≤ 9223372036854775807 then some (n : Int) else none
  match s.data with
  | '+' :: rest => core rest false
  | '-' :: rest => core rest true
  | l => core l false

/-- `ParseUint32` from the conversion-helper file: `strconv.Atoi`, panic
(`none`) on its error, then the Go conversion `uint32(i)`, which truncates
the int to its low 32 bits (`i mod 2^32`, negatives wrapping). -/
def ParseUint32 (value : String) : Option Nat :=
  match atoi value with
  | none => none
  | some i => some ((i % (4294967296 : Int)).toNat)

/-- Go `string(b)` on a `sql.RawBytes` cell: a SQL NULL column scans as a
`nil` byte slice and `string(nil)` is the empty string. -/
def rawToString : Option String → String
  | none => ""
  | some s => s

/-- The row-conversion loop of `Select` in `mysql.go`: for each column
name, `result[col] = string(values[i])` — every cell becomes a Go string
value. -/
def scanRow (columns : List String) (vals : List (Option String)) :
    List (String × GoValue) :=
  (columns.zip vals).map (fun cv => (cv.1, GoValue.str (rawToString cv.2)))

/-- The result set assembled by `Select`'s `rows.Next()` loop, given the
raw cells the driver produced for each row. -/
def Select_results (columns : List String)
    (rows : List (List (Option String))) : List (List (String × GoValue)) :=
  rows.map (scanRow columns)

/-! ### Placeholder counting -/

/-- Number of `?` characters of a string. For the strings the builder
emits — where no identifier contains a literal `?` — this is exactly the
number of placeholders. -/
def countQ (s : String) : Nat := s.data.count '?'

/-- Scans a character list for backticks: `true` exactly when every
backtick is immediately followed by a second one consumed with it, i.e.
every maximal backtick run has even length — no unescaped backtick. -/
def allBackticksDoubled : List Char → Bool
  | [] => true
  | c :: rest =>
      if c = tick then
        match rest with
        | [] => false
        | c2 :: rest2 => if c2 = tick then allBackticksDoubled rest2 else false
      else allBackticksDoubled rest

theorem countQ_append (a b : String) : countQ (a ++ b) = countQ a + countQ b := by
  simp [countQ, String.data_append, List.count_append]

theorem countQ_joinSep (sep : String) (h : countQ sep = 0) (l : List String) :
    countQ (joinSep sep l) = (l.map countQ).sum := by
  induction l with
  | nil => simp [joinSep, countQ]
  | cons s rest ih =>
      cases rest with
      | nil => simp [joinSep]
      | cons t ts =>
          simp only [joinSep, List.map_cons, List.sum_cons] at ih ⊢
          rw [countQ_append, countQ_append, h, ih]
          omega

theorem mem_escTick {c : Char} {l : List Char} (h : c ∈ escTick l) :
    c = tick ∨ c ∈ l := by
  induction l with
  | nil => simp [escTick] at h
  | cons d rest ih =>
      by_cases hd : d = tick
      · simp only [escTick, if_pos hd, List.mem_cons] at h
        rcases h with h | h | h
        · exact Or.inl h
        · exact Or.inl h
        · rcases ih h with h' | h'
          · exact Or.inl h'
          · exact Or.inr (List.mem_cons_of_mem _ h')
      · simp only [escTick, if_neg hd, List.mem_cons] at h
        rcases h with h | h
        · exact Or.inr (h ▸ List.mem_cons_self _ _)
        · rcases ih h with h' | h'
          · exact Or.inl h'
          · exact Or.inr (List.mem_cons_of_mem _ h')

theorem mem_splitDot {c : Char} {p l : List Char}
    (hp : p ∈ splitDot l) (hc : c ∈ p) : c ∈ l := by
  induction l generalizing p with
  | nil =>
      simp [splitDot] at hp
      subst hp
      simp at hc
  | cons d rest ih =>
      by_cases hd : d = '.'
      · simp only [splitDot, if_pos hd, List.mem_cons] at hp
        rcases hp with hp | hp
        · subst hp; simp at hc
        · exact List.mem_cons_of_mem _ (ih hp hc)
      · simp only [splitDot, if_neg hd] at hp
        rcases hq : splitDot rest with _ | ⟨q, qs⟩
        · rw [hq] at hp
          simp at hp
          subst hp
          simp at hc
          exact hc ▸ List.mem_cons_self _ _
        · rw [hq] at hp
          simp only [List.mem_cons] at hp
          rcases hp with hp | hp
          · subst hp
            rcases List.mem_cons.mp hc with h | h
            · exact h ▸ List.mem_cons_self _ _
            · exact List.mem_cons_of_mem _ (ih (hq ▸ List.mem_cons_self _ _) h)
          · exact List.mem_cons_of_mem _ (ih (hq ▸ List.mem_cons_of_mem _ hp) hc)

theorem mem_joinSep {c : Char} {sep : String} {l : List String}
    (h : c ∈ (joinSep sep l).data) : c ∈ sep.data ∨ ∃ s ∈ l, c ∈ s.data := by
  induction l with
  | nil => simp [joinSep] at h
  | cons s rest ih =>
      cases rest with
      | nil =>
          exact Or.inr ⟨s, List.mem_cons_self _ _, h⟩
      | cons t ts =>
          simp only [joinSep, String.data_append, List.mem_append] at h
          rcases h with (h | h) | h
          · exact Or.inr ⟨s, List.mem_cons_self _ _, h⟩
          · exact Or.inl h
          · rcases ih h with h' | ⟨u, hu, hcu⟩
            · exact Or.inl h'
            · exact Or.inr ⟨u, List.mem_cons_of_mem _ hu, hcu⟩

theorem countQ_EscapeId (id : String) (h : countQ id = 0) :
    countQ (EscapeId id) = 0 := by
  rw [countQ, List.count_eq_zero]
  intro hmem
  simp only [EscapeId, if_neg (by simp : ¬ (false = true))] at hmem
  rcases mem_joinSep hmem with hsep | ⟨s, hs, hcs⟩
  · exact absurd hsep (by decide)
  · rcases List.mem_map.mp hs with ⟨p, hp, rfl⟩
    simp only [String.data_append] at hcs
    rcases List.mem_append.mp hcs with hcs | hcs
    · rcases List.mem_append.mp hcs with hcs | hcs
      · exact absurd hcs (by decide)
      · rcases mem_escTick hcs with h' | h'
        · exact absurd h' (by decide)
        · have : '?' ∈ id.data := mem_splitDot hp h'
          rw [countQ, List.count_eq_zero] at h
          exact h this
    · exact absurd hcs (by decide)

theorem countQ_placeholders (xs : List GoValue) :
    countQ (joinSep ", " (xs.map (fun _ => "?"))) = xs.length := by
  rw [countQ_joinSep _ (by decide)]
  induction xs with
  | nil => simp
  | cons x rest ih =>
      rw [List.map_cons, List.map_cons, List.sum_cons, ih]
      have h1 : countQ "?" = 1 := by decide
      simp [h1]
      omega

theorem countQ_whereCondition (k : String) (v : GoValue) (h : countQ k = 0) :
    countQ (whereCondition k v).1 = ((whereCondition k v).2).length := by
  have hk := countQ_EscapeId k h
  cases v with
  | null => simp [whereCondition, countQ_append, hk]; decide
  | int n => simp [whereCondition, countQ_append, hk]; decide
  | str s => simp [whereCondition, countQ_append, hk]; decide
  | boolV b => simp [whereCondition, countQ_append, hk]; decide
  | mapV kvs => simp [whereCondition, countQ_append, hk]; decide
  | list xs =>
      simp only [whereCondition, countQ_append, hk, countQ_placeholders]
      have h1 : countQ "IN(" = 0 := by decide
      have h2 : countQ ")" = 0 := by decide
      omega

theorem sum_whereCondition_counts (entries : List (String × GoValue))
    (hk : ∀ kv ∈ entries, countQ kv.1 = 0) :
    (entries.map (fun kv => countQ (whereCondition kv.1 kv.2).1)).sum
      = (entries.map (fun kv => ((whereCondition kv.1 kv.2).2).length)).sum := by
  induction entries with
  | nil => rfl
  | cons e rest ih =>
      simp only [List.map_cons, List.sum_cons]
      rw [countQ_whereCondition e.1 e.2 (hk e (List.mem_cons_self _ _)),
        ih (fun kv hkv => hk kv (List.mem_cons_of_mem _ hkv))]

/-- C1: for every condition map, the WHERE text built by `prepare_where`
holds exactly one `?` per returned value (counted as `?` characters, under
the proviso that no column name itself contains a literal `?`), each
entry's fragment holds exactly as many placeholders as the values that
entry contributes, and an IN-list entry contributes its elements verbatim
in element order. -/
theorem prepare_where_placeholder_count (entries : List (String × GoValue))
    (hk : ∀ kv ∈ entries, countQ kv.1 = 0) :
    countQ (prepare_where (some entries)).query
        = (prepare_where (some entries)).values.length
    ∧ (∀ kv ∈ entries, countQ (whereCondition kv.1 kv.2).1
        = ((whereCondition kv.1 kv.2).2).length)
    ∧ (∀ k xs, (k, GoValue.list xs) ∈ entries →
        (whereCondition k (GoValue.list xs)).2 = xs) := by
  refine ⟨?_, ?_, ?_⟩
  · show countQ (" WHERE " ++ joinSep " AND " _) = _
    rw [countQ_append, countQ_joinSep _ (by decide)]
    have hW : countQ " WHERE " = 0 := by decide
    rw [hW, Nat.zero_add]
    show _ = ((entries.map _).map Prod.snd).flatten.length
    rw [List.length_flatten]
    simp only [List.map_map, Function.comp_def]
    exact sum_whereCondition_counts entries hk
  · exact fun kv hkv => countQ_whereCondition kv.1 kv.2 (hk kv hkv)
  · intro k xs _
    rfl

/-- Witness for C1 at a concrete three-entry condition map mixing an
IN-list, a scalar and a NULL condition. -/
theorem prepare_where_placeholder_count_witness :
    countQ (prepare_where (some [("id", GoValue.list [GoValue.int 1, GoValue.int 2]),
        ("name", GoValue.str "x"), ("status", GoValue.null)])).query
      = (prepare_where (some [("id", GoValue.list [GoValue.int 1, GoValue.int 2]),
        ("name", GoValue.str "x"), ("status", GoValue.null)])).values.length :=
  (prepare_where_placeholder_count _ (by decide)).1

/-- C3 (code bug): `prepare_where` returns the empty clause for a `nil`
map, but for an EMPTY NON-NIL map it returns the bare ` WHERE ` prefix
with zero conditions — the prefix appears although no condition was
emitted, which the surrounding assemblers turn into malformed SQL such as
`SELECT * FROM `t` WHERE ;`. -/
theorem prepare_where_empty_map_emits_where :
    (prepare_where none).query = ""
    ∧ (prepare_where (some [])).query = " WHERE "
    ∧ (prepare_where (some [])).values = []
    ∧ (Select_query "t" (some []) []).1 = "SELECT * FROM `t` WHERE ;" := by
  refine ⟨rfl, by decide, rfl, by decide⟩

/-- C6 (code bug): on a driver failure the panic value does carry the
query text and the driver's structured detail, and a non-driver failure is
re-raised raw; but because `ExecQuery`/`Exec` pass the `values` slice to
`handle_error`'s variadic parameter without the `...` spread, the `Error`
struct's `Values` field is a one-element sequence containing the whole
bound-value slice, not the bound-value sequence itself. -/
theorem exec_failure_wraps_values :
    exec_failure "SELECT ?;" [GoValue.int 1, GoValue.int 2] (DBErr.mysql 1062 "dup")
      = PanicVal.errorStruct
          ⟨"SELECT ?;", [GoValue.list [GoValue.int 1, GoValue.int 2]], 1062, "dup"⟩
    ∧ [GoValue.list [GoValue.int 1, GoValue.int 2]]
        ≠ [GoValue.int 1, GoValue.int 2]
    ∧ exec_failure "SELECT ?;" [GoValue.int 1] (DBErr.other "conn closed")
        = PanicVal.rawErr "conn closed" := by
  refine ⟨rfl, ?_, rfl⟩
  intro h
  exact absurd (congrArg List.length h) (by decide)

/-- C7 counterexample: the IN fragment generated for
`{"id": [1,2,3]}` is not the claimed `id IN(?, ?, ?)` — the source
formats it as `%sIN(%s)` over the ESCAPED column with NO space before
`IN`, and the claimed fragment does not occur in the clause at all. -/
theorem in_fragment_not_as_claimed :
    (whereCondition "id" (GoValue.list [GoValue.int 1, GoValue.int 2, GoValue.int 3])).1
        ≠ "id IN(?, ?, ?)"
    ∧ ¬ ("id IN(?, ?, ?)".data <:+:
        (prepare_where (some [("id",
          GoValue.list [GoValue.int 1, GoValue.int 2, GoValue.int 3])])).query.data) := by
  constructor
  · decide
  · decide

/-- C7 (amended): for the condition map `{"id": [1,2,3]}` the generated
clause is ` WHERE `id`IN(?, ?, ?)` — escaped column immediately followed
by `IN`, one placeholder per element — and the bound values are `[1,2,3]`
in element order. -/
theorem in_fragment_exact :
    (prepare_where (some [("id",
        GoValue.list [GoValue.int 1, GoValue.int 2, GoValue.int 3])])).query
      = " WHERE `id`IN(?, ?, ?)"
    ∧ (prepare_where (some [("id",
        GoValue.list [GoValue.int 1, GoValue.int 2, GoValue.int 3])])).values
      = [GoValue.int 1, GoValue.int 2, GoValue.int 3] := by
  refine ⟨by decide, rfl⟩

theorem allBackticksDoubled_escTick (l : List Char) :
    allBackticksDoubled (escTick l) = true := by
  induction l with
  | nil => rfl
  | cons c rest ih =>
      by_cases hc : c = tick
      · simp only [escTick, if_pos hc, allBackticksDoubled, if_pos rfl]
        exact ih
      · simp only [escTick, if_neg hc]
        rw [allBackticksDoubled.eq_def]
        simp only [if_neg hc]
        exact ih

/-- C4 counterexample: `EscapeId` is NOT idempotent — escaping the
already-escaped identifier `` `a` `` re-quotes and re-doubles it, giving
`` ```a``` `` instead of `` `a` `` (and likewise in ignore-dot mode). -/
theorem EscapeId_not_idempotent :
    EscapeId (EscapeId "a") ≠ EscapeId "a"
    ∧ EscapeId (EscapeId "a") = "```a```"
    ∧ EscapeId (EscapeId "a" true) true ≠ EscapeId "a" true := by
  refine ⟨by decide, by decide, by decide⟩

/-- C4 (amended): `EscapeId` is not idempotent (re-escaping re-quotes, see
the counterexample), but the injection-safety half of the claim holds:
the default mode emits each dot-separated part as the part with every
internal backtick doubled, wrapped in backticks, and the ignore-dot mode
does the same for the whole string; inside the quotes every maximal
backtick run has even length, so no unescaped input backtick survives. -/
theorem EscapeId_backticks_doubled (id : String) :
    EscapeId id = joinSep "." ((splitDot id.data).map
        (fun p => "`" ++ String.mk (escTick p) ++ "`"))
    ∧ (∀ p ∈ splitDot id.data, allBackticksDoubled (escTick p) = true)
    ∧ EscapeId id true = "`" ++ String.mk (escTick id.data) ++ "`"
    ∧ allBackticksDoubled (escTick id.data) = true := by
  refine ⟨rfl, ?_, rfl, allBackticksDoubled_escTick _⟩
  intro p _
  exact allBackticksDoubled_escTick p

/-- Witness for C4 at the identifier `a`b.c`: the part `a`b` occurs in
the split and its escaped interior has all backticks doubled. -/
theorem EscapeId_backticks_doubled_witness :
    allBackticksDoubled (escTick ("a`b".data)) = true :=
  (EscapeId_backticks_doubled "a`b.c").2.1 ("a`b".data) (by decide)

theorem lookup_mapSet (m : Options) (k : String) (v : OptVal) :
    List.lookup k (mapSet m k v) = some v := by
  induction m with
  | nil => simp [mapSet, List.lookup]
  | cons e rest ih =>
      by_cases he : e.1 = k
      · simp [mapSet, he, List.lookup]
      · simp only [mapSet, if_neg he, List.lookup]
        have hke : (k == e.1) = false :=
          beq_eq_false_iff_ne.mpr (fun hh => he hh.symm)
        simp only [hke]
        exact ih

theorem limit_query_false_eq (opts : Options) (n : Int)
    (h : List.lookup "limit" opts = some (OptVal.int n)) :
    limit_query opts false = " LIMIT " ++ intStr n := by
  rw [limit_query, h]
  rfl

theorem limit_query_true_eq (opts : Options) (n m : Int)
    (hl : List.lookup "limit" opts = some (OptVal.int n))
    (ho : List.lookup "offset" opts = some (OptVal.int m)) :
    limit_query opts true = " LIMIT " ++ intStr m ++ ", " ++ intStr n := by
  rw [limit_query, hl, ho]
  rfl

theorem limit_query_true_no_offset (opts : Options) (n : Int)
    (hl : List.lookup "limit" opts = some (OptVal.int n))
    (ho : List.lookup "offset" opts = none) :
    limit_query opts true = " LIMIT " ++ intStr 0 ++ ", " ++ intStr n := by
  rw [limit_query, hl, ho]
  rfl

theorem limit_query_true_exists (opts : Options) (n : Int)
    (hl : List.lookup "limit" opts = some (OptVal.int n)) :
    ∃ off : Int, limit_query opts true
        = " LIMIT " ++ intStr off ++ ", " ++ intStr n := by
  rw [limit_query, hl]
  exact ⟨_, rfl⟩

theorem limit_query_absent (opts : Options)
    (h : List.lookup "limit" opts = none) (b : Bool) :
    limit_query opts b = "" := by
  rw [limit_query, h]

/-- C2 counterexample: when the caller passes TWO options maps, the
`switch` in `set_limit_option` has no matching case and leaves them
untouched, so `First` executes a query built with the caller's limit:
`First("t", nil, {limit:100}, {})` runs `SELECT * FROM `t` LIMIT 0, 100;`,
not a limit-1 query. -/
theorem First_two_option_maps_keep_caller_limit :
    set_limit_option [[("limit", OptVal.int 100)], []]
        = [[("limit", OptVal.int 100)], []]
    ∧ (First_query "t" none [[("limit", OptVal.int 100)], []]).1
        = "SELECT * FROM `t` LIMIT 0, 100;" := by
  refine ⟨rfl, by decide⟩

/-- C2 (amended): whenever the caller supplies AT MOST ONE options map —
the calling convention the `First`-variant signatures document — the
options slice after `set_limit_option` holds `limit = 1` (the map being
created when absent), so the delegated query is built with effective
limit 1: the non-offset limit fragment is ` LIMIT 1`, the offset-capable
one is ` LIMIT <offset>, 1`, and `First`, `UpdateFirst` and `DeleteFirst`
are exactly the base operations run on the rewritten options. With two or
more options maps `set_limit_option` leaves the slice untouched (see the
counterexample). -/
theorem First_variants_force_limit_one (args : List Options)
    (h : args.length ≤ 1) :
    List.lookup "limit" ((set_limit_option args).headD []) = some (OptVal.int 1)
    ∧ limit_query ((set_limit_option args).headD []) false = " LIMIT 1"
    ∧ (∃ off : Int, limit_query ((set_limit_option args).headD []) true
        = " LIMIT " ++ intStr off ++ ", " ++ intStr 1)
    ∧ (∀ t w, First_query t w args = Select_query t w (set_limit_option args))
    ∧ (∀ t d w, UpdateFirst_query t d w args
        = Update_query t d w (set_limit_option args))
    ∧ (∀ t w, DeleteFirst_query t w args
        = Delete_query t w (set_limit_option args)) := by
  have hl : List.lookup "limit" ((set_limit_option args).headD [])
      = some (OptVal.int 1) := by
    match args with
    | [] => rfl
    | [o] => exact lookup_mapSet o "limit" (OptVal.int 1)
    | o1 :: o2 :: rest => simp at h
  refine ⟨hl, ?_, ?_, fun t w => rfl, fun t d w => rfl, fun t w => rfl⟩
  · exact (limit_query_false_eq _ 1 hl).trans (by decide)
  · exact limit_query_true_exists _ 1 hl

/-- Witness for C2 (amended) at the single options map `{limit: 100}`:
`set_limit_option` overwrites the limit to 1. -/
theorem First_variants_force_limit_one_witness :
    List.lookup "limit"
        ((set_limit_option [[("limit", OptVal.int 100)]]).headD [])
      = some (OptVal.int 1) :=
  (First_variants_force_limit_one [[("limit", OptVal.int 100)]] (by decide)).1

/-- C9: for every options map, an int `limit` yields ` LIMIT <limit>` in a
non-offset context and ` LIMIT <offset>, <limit>` in an offset-capable
one, the offset defaulting to 0 when absent; without a `limit` the
fragment is empty in both contexts, whatever `offset` says. -/
theorem limit_query_spec (opts : Options) :
    (∀ n : Int, List.lookup "limit" opts = some (OptVal.int n) →
        limit_query opts false = " LIMIT " ++ intStr n
        ∧ (List.lookup "offset" opts = none →
            limit_query opts true = " LIMIT " ++ intStr 0 ++ ", " ++ intStr n)
        ∧ (∀ m : Int, List.lookup "offset" opts = some (OptVal.int m) →
            limit_query opts true = " LIMIT " ++ intStr m ++ ", " ++ intStr n))
    ∧ (List.lookup "limit" opts = none →
        ∀ b : Bool, limit_query opts b = "") :=
  ⟨fun n hl =>
    ⟨limit_query_false_eq opts n hl,
     fun ho => limit_query_true_no_offset opts n hl ho,
     fun m ho => limit_query_true_eq opts n m hl ho⟩,
   fun h b => limit_query_absent opts h b⟩

/-- Witness for C9: `{limit:5, offset:10}` emits ` LIMIT 10, 5`, `{limit:5}`
emits ` LIMIT 0, 5` (SELECT context) and ` LIMIT 5` (UPDATE/DELETE
context), and an offset without a limit emits nothing. -/
theorem limit_query_spec_witness :
    limit_query [("limit", OptVal.int 5), ("offset", OptVal.int 10)] true
        = " LIMIT " ++ intStr 10 ++ ", " ++ intStr 5
    ∧ limit_query [("limit", OptVal.int 5)] true
        = " LIMIT " ++ intStr 0 ++ ", " ++ intStr 5
    ∧ limit_query [("limit", OptVal.int 5)] false = " LIMIT " ++ intStr 5
    ∧ limit_query [("offset", OptVal.int 10)] true = "" :=
  ⟨((limit_query_spec _).1 5 (by decide)).2.2 10 (by decide),
   ((limit_query_spec _).1 5 (by decide)).2.1 (by decide),
   ((limit_query_spec _).1 5 (by decide)).1,
   (limit_query_spec _).2 (by decide) true⟩

/-- C5 counterexample: `Delete` and `InsertRow` interpolate the table name
raw: for table `t` the built query texts contain no backticks at all, so
the escaped identifier `` `t` `` does not occur in them. -/
theorem delete_insertRow_table_unescaped :
    (Delete_query "t" none []).1 = "DELETE FROM t;"
    ∧ ¬ ((EscapeId "t").data <:+: (Delete_query "t" none []).1.data)
    ∧ (InsertRow_query "t" [("a", GoValue.int 1)]).1
        = "INSERT INTO t SET `a` = ?;"
    ∧ ¬ ((EscapeId "t").data <:+:
          (InsertRow_query "t" [("a", GoValue.int 1)]).1.data) := by
  refine ⟨by decide, by decide, by decide, by decide⟩

/-- C5 (amended): `Select`, `Insert` and `Update` do render the table
identifier escaped — the escaped form occurs in the built query text for
every table, condition map, data map and options — while `InsertRow` and
`Delete` interpolate the table raw (see the counterexample). -/
theorem select_insert_update_table_escaped (table : String) (w : WhereMap)
    (data : List (String × GoValue)) (args : List Options) :
    (EscapeId table).data <:+: (Select_query table w args).1.data
    ∧ (EscapeId table).data <:+: (Insert_query table data).1.data
    ∧ (EscapeId table).data <:+: (Update_query table data w args).1.data := by
  refine ⟨?_, ?_, ?_⟩
  · exact ⟨("SELECT " ++ prepare_columns (args.headD []) ++ " FROM ").data,
      ((prepare_where w).query ++ order_query (args.headD [])
        ++ limit_query (args.headD []) true ++ ";").data,
      by simp [Select_query, String.data_append, List.append_assoc]⟩
  · exact ⟨("INSERT INTO " : String).data,
      ("(" ++ joinSep ", " (data.map (fun kv => EscapeId kv.1))
        ++ ") VALUES(" ++ joinSep ", " (data.map (fun _ => "?")) ++ ")").data,
      by simp [Insert_query, String.data_append, List.append_assoc]⟩
  · exact ⟨("UPDATE " : String).data,
      (" SET " ++ (prepare_set data).1 ++ (prepare_where w).query
        ++ order_query (args.headD [])
        ++ limit_query (args.headD []) false ++ ";").data,
      by simp [Update_query, String.data_append, List.append_assoc]⟩

/-- C8 counterexample: `ParseUint32` does NOT fail fatally on values
outside the uint32 range: `-1` parses and wraps to `4294967295`, and
`4294967296` parses and truncates to `0`. -/
theorem ParseUint32_out_of_range_no_failure :
    ParseUint32 "-1" = some 4294967295
    ∧ ParseUint32 "4294967296" = some 0 := ⟨by decide, by decide⟩

/-- C8 (amended): `ParseUint32` fails fatally exactly when `strconv.Atoi`
does — on malformed input or a value outside the signed 64-bit int range —
and otherwise returns the parsed value truncated modulo 2^32: inputs whose
value fits uint32 map to that value, while negative or larger in-int-range
inputs wrap instead of failing. -/
theorem ParseUint32_truncates (s : String) :
    (∀ i : Int, atoi s = some i →
        ParseUint32 s = some ((i % (4294967296 : Int)).toNat)
        ∧ (0 ≤ i → i < 4294967296 → ParseUint32 s = some i.toNat))
    ∧ (atoi s = none → ParseUint32 s = none) := by
  constructor
  · intro i hi
    constructor
    · rw [ParseUint32, hi]
    · intro h0 hlt
      rw [ParseUint32, hi]
      show some ((i % (4294967296 : Int)).toNat) = some i.toNat
      rw [Int.emod_eq_of_lt h0 hlt]
  · intro h
    rw [ParseUint32, h]

/-- Witness for C8 (amended): the in-range input `7` parses to `7`. -/
theorem ParseUint32_truncates_witness :
    ParseUint32 "7" = some ((7 : Int)).toNat :=
  ((ParseUint32_truncates "7").1 7 (by decide)).2 (by decide) (by decide)

theorem scanRow_map_some (columns : List String) (r : List (Option String)) :
    scanRow columns (r.map (fun cell => some (rawToString cell)))
      = scanRow columns r := by
  unfold scanRow
  rw [List.zip_map_right, List.map_map]
  simp [Function.comp_def, Prod.map, rawToString]

/-- C10: every value in a row mapping returned by `Select` is a Go string
(`result[col] = string(values[i])`); a SQL NULL cell (a `nil` `RawBytes`)
scans to the empty string; and replacing every NULL cell by an actual
empty-string cell yields the identical result set, so NULL is
indistinguishable from the empty string at the public interface. -/
theorem select_rows_textual (columns : List String)
    (rows : List (List (Option String))) :
    (∀ r ∈ Select_results columns rows, ∀ kv ∈ r,
        ∃ s : String, kv.2 = GoValue.str s)
    ∧ (∀ raw ∈ rows, ∀ c : String,
        (c, (none : Option String)) ∈ columns.zip raw →
        (c, GoValue.str "") ∈ scanRow columns raw)
    ∧ Select_results columns rows
        = Select_results columns
            (rows.map (fun r => r.map (fun cell => some (rawToString cell)))) := by
  refine ⟨?_, ?_, ?_⟩
  · intro r hr kv hkv
    rcases List.mem_map.mp hr with ⟨raw, _, rfl⟩
    rcases List.mem_map.mp hkv with ⟨cv, _, rfl⟩
    exact ⟨_, rfl⟩
  · intro raw _ c hc
    exact List.mem_map.mpr ⟨(c, none), hc, rfl⟩
  · unfold Select_results
    induction rows with
    | nil => rfl
    | cons r rest ih =>
        simp only [List.map_cons, List.cons.injEq]
        exact ⟨(scanRow_map_some columns r).symm, ih⟩

/-- Witness for C10 at one column and one NULL cell: the row mapping holds
the empty string for that column. -/
theorem select_rows_textual_witness :
    ("a", GoValue.str "") ∈ scanRow ["a"] [(none : Option String)] :=
  (select_rows_textual ["a"] [[none]]).2.1 [none] (by decide) "a" (by decide)

end JeefoMysql
